import Mathlib

set_option autoImplicit false

namespace Plan9Net

/-! Shallow embedding of src/src/net/interface_plan9.go.

Go strings are modelled at character granularity as Lean strings; all
format-relevant data in this unit is ASCII, where Go byte indexing and
character indexing coincide.  A file is modelled as its list of lines, as
delivered by successive Scan calls of a bufio Scanner: line i of a file
with fewer than i+1 lines reads as the empty string, matching Text after
Scan has returned false.  A path whose file cannot be opened or read is
modelled by the file map returning none. -/

/-- Go string slicing s[a:b] on ASCII data, as used by readInterface and
interfaceAddrTable: the characters at positions a..b-1. -/
def strSlice (s : String) (a b : Nat) : String :=
  String.mk ((s.data.drop a).take (b - a))

/-- Line i of a file given as its list of lines; a missing line reads as
the empty string. -/
def getLine (lines : List String) (i : Nat) : String :=
  lines.getD i ""

/-- Character of a decimal digit value. -/
def digitChar (d : Nat) : Char := Char.ofNat (48 + d)

/-- Fuel-bounded digit expansion; fuel n + 1 always suffices for value n
(itoaAux_fuel below), so itoaChars is the exact decimal expansion. -/
def itoaAux : Nat → Nat → List Char
  | 0, _ => []
  | fuel + 1, n =>
    if n < 10 then [digitChar n]
    else itoaAux fuel (n / 10) ++ [digitChar (n % 10)]

/-- Modelled from the spec: strconv.Itoa on a nonnegative value (the
strconv source is not part of this unit); the decimal digit characters,
most significant first, with zero printed as "0". -/
def itoaChars (n : Nat) : List Char :=
  itoaAux (n + 1) n

/-- Decimal string of a nonnegative value. -/
def itoa (n : Nat) : String := String.mk (itoaChars n)

/-- Modelled from the spec: strconv.Itoa on a Go int, a negative value
printed with a leading minus sign. -/
def itoaInt (i : Int) : String :=
  if i < 0 then "-" ++ itoa i.natAbs else itoa i.toNat

/-- Splitting a character list around every occurrence of a separator
character, the semantics of Go strings.Split for the single-character
separators used in this unit (space, tab, colon, dot). -/
def splitChar (sep : Char) : List Char → List (List Char)
  | [] => [[]]
  | c :: rest =>
    if c = sep then [] :: splitChar sep rest
    else
      match splitChar sep rest with
      | [] => [[c]]
      | h :: t => (c :: h) :: t

/-- Go strings.Split on a single-character separator, over strings. -/
def strSplit (s : String) (sep : Char) : List String :=
  (splitChar sep s.data).map String.mk

/-- Value of a decimal digit character, if it is one. -/
def digitVal? (c : Char) : Option Nat :=
  if 48 ≤ c.toNat ∧ c.toNat ≤ 57 then some (c.toNat - 48) else none

/-- Decimal value of a nonempty all-digit character list. -/
def decDigits? (l : List Char) : Option Nat :=
  if l ≠ [] ∧ l.all (fun c => (digitVal? c).isSome) then
    some (l.foldl (fun a c => 10 * a + ((digitVal? c).getD 0)) 0)
  else none

/-- Modelled from the spec: strconv.ParseInt with base 10 and bit size 64
(the strconv source is not part of this unit).  An optional leading sign
followed by decimal digits; fails on an empty string, any non-digit
character, or a value outside the signed 64-bit range. -/
def parseInt10 (s : String) : Option Int :=
  let signed : Bool × List Char :=
    match s.data with
    | '-' :: rest => (true, rest)
    | '+' :: rest => (false, rest)
    | l => (false, l)
  match decDigits? signed.2 with
  | none => none
  | some n =>
    let v : Int := if signed.1 then -(n : Int) else (n : Int)
    if -(2 ^ 63) ≤ v ∧ v ≤ 2 ^ 63 - 1 then some v else none

/-- Errors surfaced by this unit: I/O failures from opening or reading a
path, error values built with errors.New, and runtime panics. -/
inductive NetErr where
  | io (path : String)
  | msg (s : String)
  | crash (s : String)
deriving DecidableEq, Repr

/-- Modelled from the spec: the net package flag constant FlagUp. -/
def FlagUp : Nat := 1

/-- Modelled from the spec: the net package flag constant FlagBroadcast. -/
def FlagBroadcast : Nat := 2

/-- Modelled from the spec: the net package flag constant FlagLoopback. -/
def FlagLoopback : Nat := 4

/-- The net.Interface record, restricted to the fields this unit sets;
HardwareAddr is the byte sequence of the physical address. -/
structure Interface where
  Index : Int
  MTU : Int
  Name : String
  HardwareAddr : List Nat
  Flags : Nat
deriving DecidableEq, Repr

/-- The net.IPAddr record; IP is the byte sequence of a parsed address. -/
structure IPAddr where
  IP : List Nat
  Zone : String
deriving DecidableEq, Repr

/-- Decidable equality of results, so that concrete runs of the embedded
functions can be checked by decide. -/
instance instDecEqExcept {ε α : Type} [DecidableEq ε] [DecidableEq α] :
    DecidableEq (Except ε α)
  | Except.error e, Except.error f =>
    decidable_of_iff (e = f) ⟨fun h => by rw [h], fun h => by cases h; rfl⟩
  | Except.error _, Except.ok _ => isFalse fun h => Except.noConfusion h
  | Except.ok _, Except.error _ => isFalse fun h => Except.noConfusion h
  | Except.ok x, Except.ok y =>
    decidable_of_iff (x = y) ⟨fun h => by rw [h], fun h => by cases h; rfl⟩

/-- Value of a hexadecimal digit character, if it is one. -/
def hexVal? (c : Char) : Option Nat :=
  if 48 ≤ c.toNat ∧ c.toNat ≤ 57 then some (c.toNat - 48)
  else if 97 ≤ c.toNat ∧ c.toNat ≤ 102 then some (c.toNat - 87)
  else if 65 ≤ c.toNat ∧ c.toNat ≤ 70 then some (c.toNat - 55)
  else none

/-- Byte value of a two-character hexadecimal group. -/
def hexPair? (p : String) : Option Nat :=
  match p.data with
  | [a, b] =>
    match hexVal? a, hexVal? b with
    | some x, some y => some (16 * x + y)
    | _, _ => none
  | _ => none

/-- Modelled from the spec: net.ParseMAC (defined outside this unit) on
the colon-separated form produced here; six colon-separated two-character
hexadecimal groups yield the six address bytes, anything else fails. -/
def ParseMAC (s : String) : Except NetErr (List Nat) :=
  match (strSplit s ':').mapM hexPair? with
  | some bs =>
    if bs.length = 6 then Except.ok bs
    else Except.error (NetErr.msg ("invalid MAC address " ++ s))
  | none => Except.error (NetErr.msg ("invalid MAC address " ++ s))

/-- Decimal value of one dotted-quad component: nonempty, all digits, at
most 255. -/
def ipField? (s : String) : Option Nat :=
  match decDigits? s.data with
  | some n => if n ≤ 255 then some n else none
  | none => none

/-- Modelled from the spec: net.ParseIP (defined outside this unit),
restricted to dotted-quad IPv4 literals; the four address bytes, or none
for anything unparseable. -/
def ParseIP (s : String) : Option (List Nat) :=
  match (strSplit s '.').mapM ipField? with
  | some bs => if bs.length = 4 then some bs else none
  | none => none

/-- The observable pseudo-filesystem: the name listing of the ipifc
directory (none when it cannot be opened or read) and, for every path,
the lines of the file there (none when it cannot be opened or read). -/
structure Plan9FS where
  dirNames : Option (List String)
  files : String → Option (List String)

/-- The plan9 network directory root. -/
def netdir : String := "/net"

/-- Modelled from the spec: filepath.Join on already clean components is
plain "/"-separated concatenation. -/
def joinPath : List String → String
  | [] => ""
  | [p] => p
  | p :: q :: rest => p ++ "/" ++ joinPath (q :: rest)

/-- Path of the status file of the interface with the given name. -/
def statusPath (name : String) : String :=
  joinPath [netdir, "ipifc", name, "status"]

/-- Path of the interface enumeration directory. -/
def ipifcPath : String := joinPath [netdir, "ipifc"]

/-- The counting loop of getInterfaceCount: while the decimal name of the
counter occurs in the listing, increment.  Fuel bounds the iterations;
names.length + 1 always suffices because the decimal names of the counts
consumed are distinct members of the listing. -/
def countLoop (names : List String) : Nat → Nat → Nat
  | 0, count => count
  | fuel + 1, count =>
    if names.contains (itoa count) then countLoop names fuel (count + 1) else count

/-- Embedding of getInterfaceCount: read the directory listing once and
count the contiguous run of decimal names starting at "0". -/
def getInterfaceCount (fs : Plan9FS) : Except NetErr Nat :=
  match fs.dirNames with
  | none => Except.error (NetErr.io ipifcPath)
  | some names => Except.ok (countLoop names (names.length + 1) 0)

/-- The hardware address reformatting of readInterface, written with the
same slice concatenation as the source: address[0:1] + address[1:2] + ":"
+ address[2:3] + address[3:4] + ":" + ... + address[11:12]. -/
def reformatMAC (address : String) : String :=
  strSlice address 0 1 ++ strSlice address 1 2 ++ ":" ++
  strSlice address 2 3 ++ strSlice address 3 4 ++ ":" ++
  strSlice address 4 5 ++ strSlice address 5 6 ++ ":" ++
  strSlice address 6 7 ++ strSlice address 7 8 ++ ":" ++
  strSlice address 8 9 ++ strSlice address 9 10 ++ ":" ++
  strSlice address 10 11 ++ strSlice address 11 12

/-- Embedding of readInterface: read the status file of the interface at
the given zero-based position, parse device path and MTU from its first
line, read the device address file, validate and reformat the hardware
address, and assemble the record. -/
def readInterface (fs : Plan9FS) (id : Int) : Except NetErr Interface :=
  let name := itoaInt id
  let sPath := statusPath name
  match fs.files sPath with
  | none => Except.error (NetErr.io sPath)
  | some sLines =>
    let status := getLine sLines 0
    let statusData := strSplit status ' '
    if statusData.length < 4 then
      Except.error (NetErr.msg ("Invalid status file of interface: " ++ sPath))
    else
      let device := statusData.getD 1 ""
      let mtuStr := statusData.getD 3 ""
      match parseInt10 mtuStr with
      | none => Except.error (NetErr.msg ("Invalid status file of interface: " ++ sPath))
      | some mtu =>
        let aPath := joinPath [device, "addr"]
        match fs.files aPath with
        | none => Except.error (NetErr.io aPath)
        | some aLines =>
          let address := getLine aLines 0
          if address.data.length ≠ 12 then
            Except.error (NetErr.msg "Interface has invalid hardware address")
          else
            match ParseMAC (reformatMAC address) with
            | Except.error e => Except.error e
            | Except.ok mac =>
              Except.ok { Index := id + 1, MTU := mtu, Name := name,
                          HardwareAddr := mac,
                          Flags := FlagUp ||| FlagBroadcast ||| FlagLoopback }

/-- The collection loop of interfaceTable over positions 0..n-1: read each
interface in order, aborting on the first error. -/
def collectIfaces (fs : Plan9FS) : List Nat → Except NetErr (List Interface)
  | [] => Except.ok []
  | i :: rest =>
    match readInterface fs (Int.ofNat i) with
    | Except.error e => Except.error e
    | Except.ok ifc =>
      match collectIfaces fs rest with
      | Except.error e => Except.error e
      | Except.ok xs => Except.ok (ifc :: xs)

/-- Embedding of interfaceTable: selector 0 lists all interfaces counted
by getInterfaceCount in ascending position order; a nonzero selector reads
the single interface at that position. -/
def interfaceTable (fs : Plan9FS) (ifindex : Int) : Except NetErr (List Interface) :=
  if ifindex = 0 then
    match getInterfaceCount fs with
    | Except.error e => Except.error e
    | Except.ok n => collectIfaces fs (List.range n)
  else
    match readInterface fs ifindex with
    | Except.error e => Except.error e
    | Except.ok ifc => Except.ok [ifc]

/-- One iteration of the interfaceAddrTable loop: reopen the status file
of the given interface, take the second line, test that it begins with a
tab via the slice ipline[0:1] — which panics in Go when the line is empty,
modelled by the crash error — then take the first space token of the
second tab field and parse it as an IP address.  The index [1] into the
tab split cannot be out of range there, since past the guard the line
contains a tab. -/
def addrForIface (fs : Plan9FS) (iface : Interface) : Except NetErr IPAddr :=
  let sPath := statusPath iface.Name
  match fs.files sPath with
  | none => Except.error (NetErr.io sPath)
  | some sLines =>
    let ipline := getLine sLines 1
    if ipline.data.length = 0 then
      Except.error (NetErr.crash "slice bounds out of range")
    else if strSlice ipline 0 1 ≠ "\t" then
      Except.error (NetErr.msg "Cannot parse IP address for interface")
    else
      let ipaddr := (strSplit ((strSplit ipline '\t').getD 1 "") ' ').getD 0 ""
      match ParseIP ipaddr with
      | none => Except.error (NetErr.msg "Unable to parse IP address for interface")
      | some ip => Except.ok { IP := ip, Zone := "" }

/-- The per-interface loop of interfaceAddrTable, in order, aborting on
the first error. -/
def buildAddrs (fs : Plan9FS) : List Interface → Except NetErr (List IPAddr)
  | [] => Except.ok []
  | i :: rest =>
    match addrForIface fs i with
    | Except.error e => Except.error e
    | Except.ok a =>
      match buildAddrs fs rest with
      | Except.error e => Except.error e
      | Except.ok as => Except.ok (a :: as)

/-- Embedding of interfaceAddrTable: resolve the interface set — all via
interfaceTable 0 when none is given, else the single given one — then
produce one address record per interface. -/
def interfaceAddrTable (fs : Plan9FS) (ifi : Option Interface) : Except NetErr (List IPAddr) :=
  match ifi with
  | none =>
    match interfaceTable fs 0 with
    | Except.error e => Except.error e
    | Except.ok ifaces => buildAddrs fs ifaces
  | some i => buildAddrs fs [i]

/-- Embedding of interfaceMulticastAddrTable: a stub, always the empty
result. -/
def interfaceMulticastAddrTable (_fs : Plan9FS) (_ifi : Option Interface) :
    Except NetErr (List IPAddr) :=
  Except.ok []

/-! Basic facts about the decimal name encoding. -/

theorem itoaAux_fuel (n : Nat) : ∀ f1 f2, n < f1 → n < f2 → itoaAux f1 n = itoaAux f2 n := by
  induction n using Nat.strong_induction_on with
  | _ n ih =>
    intro f1 f2 h1 h2
    cases f1 with
    | zero => omega
    | succ g1 =>
      cases f2 with
      | zero => omega
      | succ g2 =>
        simp only [itoaAux]
        by_cases h : n < 10
        · simp [h]
        · simp only [if_neg h]
          have hd : n / 10 < n := Nat.div_lt_self (by omega) (by omega)
          rw [ih (n / 10) hd g1 g2 (by omega) (by omega)]

theorem itoaChars_eq (n : Nat) :
    itoaChars n = if n < 10 then [digitChar n] else itoaChars (n / 10) ++ [digitChar (n % 10)] := by
  unfold itoaChars
  by_cases h : n < 10
  · simp [itoaAux, h]
  · simp only [if_neg h]
    conv_lhs => rw [itoaAux]
    simp only [if_neg h]
    have hd : n / 10 < n := Nat.div_lt_self (by omega) (by omega)
    rw [itoaAux_fuel (n / 10) n (n / 10 + 1) (by omega) (by omega)]

theorem digitChar_inj : ∀ a, a < 10 → ∀ b, b < 10 → digitChar a = digitChar b → a = b := by
  decide

theorem itoaChars_ne_nil (n : Nat) : itoaChars n ≠ [] := by
  rw [itoaChars_eq]
  by_cases h : n < 10 <;> simp [h]

theorem itoaChars_inj (a : Nat) : ∀ b, itoaChars a = itoaChars b → a = b := by
  induction a using Nat.strong_induction_on with
  | _ a ih =>
    intro b hab
    rw [itoaChars_eq a, itoaChars_eq b] at hab
    by_cases ha : a < 10 <;> by_cases hb : b < 10
    · simp only [if_pos ha, if_pos hb, List.cons.injEq, and_true] at hab
      exact digitChar_inj a ha b hb hab
    · simp only [if_pos ha, if_neg hb] at hab
      have hlen := congrArg List.length hab
      simp at hlen
      exact absurd hlen (itoaChars_ne_nil (b / 10))
    · simp only [if_neg ha, if_pos hb] at hab
      have hlen := congrArg List.length hab
      simp at hlen
      exact absurd hlen (itoaChars_ne_nil (a / 10))
    · simp only [if_neg ha, if_neg hb] at hab
      obtain ⟨h1, h2⟩ := List.append_inj' hab (by simp)
      have hmod : a % 10 = b % 10 := by
        have := digitChar_inj (a % 10) (Nat.mod_lt _ (by omega)) (b % 10) (Nat.mod_lt _ (by omega))
        simp only [List.cons.injEq, and_true] at h2
        exact this h2
      have hdiv : a / 10 = b / 10 :=
        ih (a / 10) (Nat.div_lt_self (by omega) (by omega)) (b / 10) h1
      omega

theorem itoa_inj (a b : Nat) (h : itoa a = itoa b) : a = b :=
  itoaChars_inj a b (congrArg String.data h)

/-! The counting loop of getInterfaceCount. -/

theorem countLoop_run (names : List String) (j : Nat) :
    ∀ count fuel, j < fuel →
      (∀ i, i < j → names.contains (itoa (count + i)) = true) →
      names.contains (itoa (count + j)) = false →
      countLoop names fuel count = count + j := by
  induction j with
  | zero =>
    intro count fuel hf _ habs
    cases fuel with
    | zero => omega
    | succ g =>
      rw [Nat.add_zero] at habs
      unfold countLoop
      rw [if_neg (by simpa using habs)]
      omega
  | succ j ih =>
    intro count fuel hf hpres habs
    cases fuel with
    | zero => omega
    | succ g =>
      have h0 : names.contains (itoa count) = true := by
        have := hpres 0 (by omega)
        rwa [Nat.add_zero] at this
      simp only [countLoop, h0, if_pos]
      have hres := ih (count + 1) g (by omega)
        (fun i hi => by
          have := hpres (i + 1) (by omega)
          rwa [show count + (i + 1) = count + 1 + i by omega] at this)
        (by rwa [show count + 1 + j = count + (j + 1) by omega])
      rw [hres]
      omega

theorem run_le_length (names : List String) (k : Nat)
    (hpres : ∀ i, i < k → itoa i ∈ names) : k ≤ names.length := by
  have hnd : ((List.range k).map itoa).Nodup :=
    (List.nodup_range k).map (fun a b h => itoa_inj a b h)
  have hsub : (List.range k).map itoa ⊆ names := by
    intro x hx
    obtain ⟨i, hi, rfl⟩ := List.mem_map.mp hx
    exact hpres i (List.mem_range.mp hi)
  have := (hnd.subperm hsub).length_le
  simpa using this

/-- C1: for every directory listing, getInterfaceCount returns the length
of the maximal contiguous run of decimal-named entries starting at "0":
if entries "0" .. decimal (k-1) are present and entry decimal k is
absent, it returns exactly k, regardless of any higher non-contiguous
entries also present. -/
theorem getInterfaceCount_contiguous_run (fs : Plan9FS) (names : List String) (k : Nat)
    (hdir : fs.dirNames = some names)
    (hpres : ∀ i, i < k → itoa i ∈ names)
    (habs : itoa k ∉ names) :
    getInterfaceCount fs = Except.ok k := by
  unfold getInterfaceCount
  rw [hdir]
  have hk : k ≤ names.length := run_le_length names k hpres
  have hrun := countLoop_run names k 0 (names.length + 1) (by omega)
    (fun i hi => by simpa using hpres i hi)
    (by simpa using habs)
  simpa using hrun

/-- Witness for C1 at the listing of the claim: entries 0, 1, 2 and 5
give count 3. -/
theorem getInterfaceCount_contiguous_run_witness :
    getInterfaceCount ⟨some ["0", "1", "2", "5"], fun _ => none⟩ = Except.ok 3 :=
  getInterfaceCount_contiguous_run ⟨some ["0", "1", "2", "5"], fun _ => none⟩
    ["0", "1", "2", "5"] 3 rfl (by decide) (by decide)

/-! Sample filesystems used to witness the theorems on concrete runs. -/

/-- A two-interface filesystem with well-formed status and address files. -/
def sampleFS : Plan9FS where
  dirNames := some ["0", "1"]
  files := fun p =>
    if p = "/net/ipifc/0/status" then
      some ["up /net/ether0 x 1500", "\t10.0.0.5 255.255.255.0\t"]
    else if p = "/net/ether0/addr" then some ["0011223344aa"]
    else if p = "/net/ipifc/1/status" then
      some ["up /net/ether1 x 9000", "\t192.168.1.7 255.255.255.0\t"]
    else if p = "/net/ether1/addr" then some ["ffeeddccbba9"]
    else none

/-- The record read from position 0 of sampleFS. -/
def sampleRec0 : Interface :=
  ⟨1, 1500, "0", [0x00, 0x11, 0x22, 0x33, 0x44, 0xaa], 7⟩

/-- The record read from position 1 of sampleFS. -/
def sampleRec1 : Interface :=
  ⟨2, 9000, "1", [0xff, 0xee, 0xdd, 0xcc, 0xbb, 0xa9], 7⟩

/-! Fields of a successfully read record. -/

theorem itoaInt_nonneg (id : Int) (h : 0 ≤ id) : itoaInt id = itoa id.toNat := by
  unfold itoaInt
  rw [if_neg (by omega)]

theorem readInterface_fields (fs : Plan9FS) (id : Int) (rec : Interface)
    (h : readInterface fs id = Except.ok rec) :
    rec.Index = id + 1 ∧ rec.Name = itoaInt id := by
  simp only [readInterface] at h
  repeat' split at h
  all_goals try exact Except.noConfusion h
  injection h with h
  subst h
  exact ⟨rfl, rfl⟩

/-- C4: for every non-negative position id on which readInterface
succeeds, the returned record has Index equal to id + 1 and Name equal to
the decimal string of id. -/
theorem readInterface_index_name (fs : Plan9FS) (id : Int) (rec : Interface)
    (hid : 0 ≤ id) (h : readInterface fs id = Except.ok rec) :
    rec.Index = id + 1 ∧ rec.Name = itoa id.toNat := by
  have hf := readInterface_fields fs id rec h
  rw [itoaInt_nonneg id hid] at hf
  exact hf

/-- Witness for C4 at position 1 of the sample filesystem. -/
theorem readInterface_index_name_witness :
    sampleRec1.Index = 1 + 1 ∧ sampleRec1.Name = itoa (1 : Int).toNat :=
  readInterface_index_name sampleFS 1 sampleRec1 (by decide) (by decide)

/-! Failure analysis of the status line parse. -/

/-- C9: for every status file whose first line splits on single spaces
into fewer than 4 fields, readInterface fails with a format error naming
the offending file; the failure is a format error, not an I/O error, and
no record is returned. -/
theorem readInterface_few_fields (fs : Plan9FS) (id : Int) (sLines : List String)
    (hopen : fs.files (statusPath (itoaInt id)) = some sLines)
    (hfew : (strSplit (getLine sLines 0) ' ').length < 4) :
    readInterface fs id =
      Except.error (NetErr.msg ("Invalid status file of interface: " ++ statusPath (itoaInt id))) ∧
    (∀ p, readInterface fs id ≠ Except.error (NetErr.io p)) ∧
    (∀ rec, readInterface fs id ≠ Except.ok rec) := by
  have hmain : readInterface fs id =
      Except.error (NetErr.msg ("Invalid status file of interface: " ++ statusPath (itoaInt id))) := by
    simp only [readInterface, hopen]
    rw [if_pos hfew]
  exact ⟨hmain, fun p => by rw [hmain]; simp, fun rec => by rw [hmain]; simp⟩

/-- A filesystem whose single status file has only three fields. -/
def fsFewFields : Plan9FS :=
  ⟨some ["0"], fun p => if p = "/net/ipifc/0/status" then some ["up net 1500"] else none⟩

/-- Witness for C9: a three-field status line yields the format error. -/
theorem readInterface_few_fields_witness :
    readInterface fsFewFields 0 =
      Except.error (NetErr.msg "Invalid status file of interface: /net/ipifc/0/status") :=
  (readInterface_few_fields fsFewFields 0 ["up net 1500"] (by decide) (by decide)).1

/-! Failure analysis of the hardware address stage. -/

/-- C8: when the device address file is reached, a first line whose
length differs from 12 characters fails with the invalid hardware address
format error, and a 12-character first line whose reformatting fails
physical-address parsing propagates that parse error. -/
theorem readInterface_hwaddr_length (fs : Plan9FS) (id : Int) (m : Int)
    (sLines aLines : List String)
    (hopen : fs.files (statusPath (itoaInt id)) = some sLines)
    (hfields : ¬ (strSplit (getLine sLines 0) ' ').length < 4)
    (hmtu : parseInt10 ((strSplit (getLine sLines 0) ' ').getD 3 "") = some m)
    (haopen : fs.files (joinPath [(strSplit (getLine sLines 0) ' ').getD 1 "", "addr"]) =
      some aLines) :
    ((getLine aLines 0).data.length ≠ 12 →
      readInterface fs id = Except.error (NetErr.msg "Interface has invalid hardware address")) ∧
    (∀ e, (getLine aLines 0).data.length = 12 →
      ParseMAC (reformatMAC (getLine aLines 0)) = Except.error e →
      readInterface fs id = Except.error e) := by
  constructor
  · intro hlen
    simp only [readInterface, hopen, hmtu, haopen]
    rw [if_neg hfields, if_pos hlen]
  · intro e hlen hmac
    simp only [readInterface, hopen, hmtu, haopen]
    rw [if_neg hfields, if_neg (by omega), hmac]

/-- A filesystem whose address file first line has 11 characters. -/
def fsShortAddr : Plan9FS :=
  ⟨some ["0"], fun p =>
    if p = "/net/ipifc/0/status" then some ["up /net/ether0 x 1500"]
    else if p = "/net/ether0/addr" then some ["0011223344a"]
    else none⟩

/-- A filesystem whose address file first line has 12 characters but a
non-hexadecimal character. -/
def fsBadHexAddr : Plan9FS :=
  ⟨some ["0"], fun p =>
    if p = "/net/ipifc/0/status" then some ["up /net/ether0 x 1500"]
    else if p = "/net/ether0/addr" then some ["0011223344ag"]
    else none⟩

/-- Witness for C8: an 11-character line gives the invalid hardware
address error, and a 12-character non-hex line gives the physical address
parse error. -/
theorem readInterface_hwaddr_length_witness :
    readInterface fsShortAddr 0 =
      Except.error (NetErr.msg "Interface has invalid hardware address") ∧
    readInterface fsBadHexAddr 0 =
      Except.error (NetErr.msg "invalid MAC address 00:11:22:33:44:ag") :=
  ⟨(readInterface_hwaddr_length fsShortAddr 0 1500 ["up /net/ether0 x 1500"] ["0011223344a"]
      (by decide) (by decide) (by decide) (by decide)).1 (by decide),
   (readInterface_hwaddr_length fsBadHexAddr 0 1500 ["up /net/ether0 x 1500"] ["0011223344ag"]
      (by decide) (by decide) (by decide) (by decide)).2
      (NetErr.msg "invalid MAC address 00:11:22:33:44:ag") (by decide) (by decide)⟩

/-! The hardware address reformatting step. -/

theorem data_mk (l : List Char) : (String.mk l).data = l := rfl

theorem colon_data : (":" : String).data = [':'] := rfl

/-- Specification-side form of the reformatting: the six consecutive
two-character groups of the input, joined by colons. -/
def specGroups (s : String) : String :=
  String.mk ((s.data.drop 0).take 2) ++ ":" ++ String.mk ((s.data.drop 2).take 2) ++ ":" ++
  String.mk ((s.data.drop 4).take 2) ++ ":" ++ String.mk ((s.data.drop 6).take 2) ++ ":" ++
  String.mk ((s.data.drop 8).take 2) ++ ":" ++ String.mk ((s.data.drop 10).take 2)

theorem take_one_pair (l : List Char) (a : Nat) :
    (l.drop a).take 1 ++ (l.drop (a + 1)).take 1 = (l.drop a).take 2 := by
  have h1 : l.drop (a + 1) = (l.drop a).drop 1 := by
    rw [List.drop_drop, Nat.add_comm]
  rw [h1, show (2 : Nat) = 1 + 1 from rfl, List.take_add]

theorem pairC (l : List Char) (a : Nat) (r : List Char) :
    (l.drop a).take 1 ++ ((l.drop (a + 1)).take 1 ++ r) = (l.drop a).take 2 ++ r := by
  rw [← List.append_assoc, take_one_pair]

theorem pairC0 (l r : List Char) : l.take 1 ++ (l.tail.take 1 ++ r) = l.take 2 ++ r := by
  have h := pairC l 0 r
  simpa [List.drop_one] using h

theorem reformatMAC_eq_specGroups (s : String) : reformatMAC s = specGroups s := by
  apply String.ext
  simp only [reformatMAC, specGroups, strSlice, String.data_append, data_mk, colon_data]
  norm_num
  rw [pairC0 s.data, pairC s.data 2, pairC s.data 4, pairC s.data 6, pairC s.data 8,
      take_one_pair s.data 10]

/-- C5: for every 12-character raw hardware address string that
readInterface reaches, the reformatting step produces exactly the six
consecutive two-character groups of the input joined by colons, the
result is handed to physical address parsing, and a parse failure
propagates that error (the Except map keeps an error unchanged). -/
theorem readInterface_mac_pipeline (fs : Plan9FS) (id : Int) (m : Int)
    (sLines aLines : List String)
    (hopen : fs.files (statusPath (itoaInt id)) = some sLines)
    (hfields : ¬ (strSplit (getLine sLines 0) ' ').length < 4)
    (hmtu : parseInt10 ((strSplit (getLine sLines 0) ' ').getD 3 "") = some m)
    (haopen : fs.files (joinPath [(strSplit (getLine sLines 0) ' ').getD 1 "", "addr"]) =
      some aLines)
    (hlen : (getLine aLines 0).data.length = 12) :
    reformatMAC (getLine aLines 0) = specGroups (getLine aLines 0) ∧
    readInterface fs id = (ParseMAC (specGroups (getLine aLines 0))).map
      (fun mac => ⟨id + 1, m, itoaInt id, mac, FlagUp ||| FlagBroadcast ||| FlagLoopback⟩) := by
  refine ⟨reformatMAC_eq_specGroups (getLine aLines 0), ?_⟩
  simp only [readInterface, hopen, hmtu, haopen]
  rw [if_neg hfields, if_neg (by omega), reformatMAC_eq_specGroups]
  cases hmac : ParseMAC (specGroups (getLine aLines 0)) <;> simp [Except.map]

/-- Witness for C5: the 12-character line 0011223344aa is reformatted to
00:11:22:33:44:aa and the sample read succeeds with those address bytes. -/
theorem readInterface_mac_pipeline_witness :
    reformatMAC "0011223344aa" = "00:11:22:33:44:aa" ∧
    readInterface sampleFS 0 = Except.ok sampleRec0 := by
  have h := readInterface_mac_pipeline sampleFS 0 1500
    ["up /net/ether0 x 1500", "\t10.0.0.5 255.255.255.0\t"] ["0011223344aa"]
    (by decide) (by decide) (by decide) (by decide) (by decide)
  exact ⟨h.1.trans (by decide), h.2.trans (by decide)⟩

/-! The MTU field. -/

/-- C6 (amended): the MTU of every successful read is the signed base-10
parse of the fourth space-delimited field of the status line — negative
when the field carries a minus sign — and a non-numeric field in that
position causes a format error naming the offending file. -/
theorem readInterface_mtu (fs : Plan9FS) (id : Int) (sLines : List String)
    (hopen : fs.files (statusPath (itoaInt id)) = some sLines) :
    (∀ rec, readInterface fs id = Except.ok rec →
      parseInt10 ((strSplit (getLine sLines 0) ' ').getD 3 "") = some rec.MTU) ∧
    (¬ (strSplit (getLine sLines 0) ' ').length < 4 →
      parseInt10 ((strSplit (getLine sLines 0) ' ').getD 3 "") = none →
      readInterface fs id =
        Except.error (NetErr.msg ("Invalid status file of interface: " ++ statusPath (itoaInt id)))) := by
  constructor
  · intro rec h
    by_cases hlen4 : (strSplit (getLine sLines 0) ' ').length < 4
    · simp only [readInterface, hopen, if_pos hlen4] at h
      exact Except.noConfusion h
    · cases hp : parseInt10 ((strSplit (getLine sLines 0) ' ').getD 3 "") with
      | none =>
        simp only [readInterface, hopen, if_neg hlen4, hp] at h
        exact Except.noConfusion h
      | some mtu =>
        cases ha : fs.files (joinPath [(strSplit (getLine sLines 0) ' ').getD 1 "", "addr"]) with
        | none =>
          simp only [readInterface, hopen, if_neg hlen4, hp, ha] at h
          exact Except.noConfusion h
        | some aLines =>
          by_cases hl : (getLine aLines 0).data.length ≠ 12
          · simp only [readInterface, hopen, if_neg hlen4, hp, ha, if_pos hl] at h
            exact Except.noConfusion h
          · cases hm : ParseMAC (reformatMAC (getLine aLines 0)) with
            | error e =>
              simp only [readInterface, hopen, if_neg hlen4, hp, ha, if_neg hl, hm] at h
              exact Except.noConfusion h
            | ok mac =>
              simp only [readInterface, hopen, if_neg hlen4, hp, ha, if_neg hl, hm] at h
              have h2 := Except.ok.inj h
              subst h2
              rfl
  · intro hfields hnone
    simp only [readInterface, hopen, hnone, if_neg hfields]

/-- A filesystem whose status file carries a negative fourth field. -/
def fsNegMTU : Plan9FS :=
  ⟨some ["0"], fun p =>
    if p = "/net/ipifc/0/status" then some ["up /net/ether0 x -5"]
    else if p = "/net/ether0/addr" then some ["0011223344aa"]
    else none⟩

/-- The record read from fsNegMTU; its MTU is negative. -/
def negRec : Interface := ⟨1, -5, "0", [0x00, 0x11, 0x22, 0x33, 0x44, 0xaa], 7⟩

/-- Counterexample for C6: a status line whose fourth field is -5 parses
successfully, the read succeeds, and the returned MTU is negative,
refuting the claim that the MTU of every successful read is
non-negative. -/
theorem readInterface_mtu_negative_cex :
    readInterface fsNegMTU 0 = Except.ok negRec ∧ negRec.MTU < 0 :=
  ⟨by decide, by decide⟩

/-- A filesystem whose status file carries a non-numeric fourth field. -/
def fsBadMTU : Plan9FS :=
  ⟨some ["0"], fun p =>
    if p = "/net/ipifc/0/status" then some ["up /net/ether0 x 15x0"] else none⟩

/-- Witness for C6 (amended) on both conjuncts: the negative field -5 is
returned as MTU -5, and a non-numeric field yields the format error. -/
theorem readInterface_mtu_witness :
    parseInt10 "-5" = some negRec.MTU ∧
    readInterface fsBadMTU 0 =
      Except.error (NetErr.msg "Invalid status file of interface: /net/ipifc/0/status") :=
  ⟨(readInterface_mtu fsNegMTU 0 ["up /net/ether0 x -5"] (by decide)).1 negRec (by decide),
   (readInterface_mtu fsBadMTU 0 ["up /net/ether0 x 15x0"] (by decide)).2 (by decide) (by decide)⟩

/-! The tab validation of the address line. -/

/-- On a nonempty second line that does not begin with a tab, the loop
body of interfaceAddrTable returns the cannot-parse format error. -/
theorem addrForIface_no_tab (fs : Plan9FS) (iface : Interface) (sLines : List String)
    (hopen : fs.files (statusPath iface.Name) = some sLines)
    (hne : ¬ (getLine sLines 1).data.length = 0)
    (htab : strSlice (getLine sLines 1) 0 1 ≠ "\t") :
    addrForIface fs iface = Except.error (NetErr.msg "Cannot parse IP address for interface") := by
  simp only [addrForIface, hopen]
  rw [if_neg hne, if_pos htab]

/-- A filesystem whose status file has no second line. -/
def fsNoSecondLine : Plan9FS :=
  ⟨some ["0"], fun p =>
    if p = "/net/ipifc/0/status" then some ["up /net/ether0 x 1500"] else none⟩

/-- C2: on an interface whose status file has no second line, the scanner
yields the empty string, the slice ipline[0:1] is out of range, and the
code panics instead of returning the cannot-parse format error. -/
theorem interfaceAddrTable_empty_line_crash :
    interfaceAddrTable fsNoSecondLine (some ⟨1, 1500, "0", [0, 17, 34, 51, 68, 170], 7⟩) =
      Except.error (NetErr.crash "slice bounds out of range") ∧
    interfaceAddrTable fsNoSecondLine (some ⟨1, 1500, "0", [0, 17, 34, 51, 68, 170], 7⟩) ≠
      Except.error (NetErr.msg "Cannot parse IP address for interface") :=
  ⟨by decide, by decide⟩

/-! The full enumeration of interfaceTable with the zero selector. -/

theorem collectIfaces_ok (fs : Plan9FS) (recs : Nat → Interface) :
    ∀ l : List Nat, (∀ i ∈ l, readInterface fs (Int.ofNat i) = Except.ok (recs i)) →
      collectIfaces fs l = Except.ok (l.map recs) := by
  intro l
  induction l with
  | nil => intro _; rfl
  | cons i rest ih =>
    intro hall
    simp only [collectIfaces, hall i (by simp),
      ih (fun j hj => hall j (by simp [hj])), List.map_cons]

theorem collectIfaces_err (fs : Plan9FS) (e : NetErr) :
    ∀ l1 : List Nat, ∀ j l2, (∀ i ∈ l1, (readInterface fs (Int.ofNat i)).isOk = true) →
      readInterface fs (Int.ofNat j) = Except.error e →
      collectIfaces fs (l1 ++ j :: l2) = Except.error e := by
  intro l1
  induction l1 with
  | nil =>
    intro j l2 _ hj
    simp only [List.nil_append, collectIfaces, hj]
  | cons i rest ih =>
    intro j l2 hall hj
    have hok := hall i (by simp)
    cases hri : readInterface fs (Int.ofNat i) with
    | error f =>
      rw [hri] at hok
      simp [Except.isOk, Except.toBool] at hok
    | ok r =>
      have hi2 := ih j l2 (fun x hx => hall x (by simp [hx])) hj
      simp only [List.cons_append, collectIfaces, List.append_eq, hri, hi2]

/-- C3: with the zero selector over a directory whose contiguous entry
count is n, interfaceTable returns the records of positions 0..n-1 in
ascending position order; and whenever reading some position fails while
every earlier position reads successfully, the whole call returns exactly
that error and no sequence at all. -/
theorem interfaceTable_zero (fs : Plan9FS) (n : Nat)
    (hn : getInterfaceCount fs = Except.ok n) :
    (∀ recs : Nat → Interface,
      (∀ i, i < n → readInterface fs (Int.ofNat i) = Except.ok (recs i)) →
      interfaceTable fs 0 = Except.ok ((List.range n).map recs)) ∧
    (∀ j e, j < n →
      (∀ i, i < j → (readInterface fs (Int.ofNat i)).isOk = true) →
      readInterface fs (Int.ofNat j) = Except.error e →
      interfaceTable fs 0 = Except.error e ∧
        ∀ l, interfaceTable fs 0 ≠ Except.ok l) := by
  have htab : interfaceTable fs 0 = collectIfaces fs (List.range n) := by
    simp [interfaceTable, hn]
  constructor
  · intro recs hall
    rw [htab]
    exact collectIfaces_ok fs recs (List.range n)
      (fun i hi => hall i (List.mem_range.mp hi))
  · intro j e hj hpre hje
    have hsplit : List.range n = List.range j ++ j ::
        ((List.range (n - j - 1)).map (fun x => j + Nat.succ x)) := by
      have hn2 : n = j + (n - j - 1 + 1) := by omega
      rw [hn2, List.range_add, List.range_succ_eq_map]
      simp [Function.comp]
    have herr : interfaceTable fs 0 = Except.error e := by
      rw [htab, hsplit]
      exact collectIfaces_err fs e (List.range j) j _
        (fun i hi => hpre i (List.mem_range.mp hi)) hje
    exact ⟨herr, fun l => by rw [herr]; simp⟩

/-- The records of the sample filesystem, indexed by position. -/
def sampleRecs : Nat → Interface := fun i => if i = 0 then sampleRec0 else sampleRec1

/-- A filesystem whose entry 1 references a device address file that is
missing, so reading position 1 fails with an I/O error. -/
def fsBrokenEntry : Plan9FS :=
  ⟨some ["0", "1"], fun p =>
    if p = "/net/ipifc/0/status" then some ["up /net/ether0 x 1500"]
    else if p = "/net/ether0/addr" then some ["0011223344aa"]
    else if p = "/net/ipifc/1/status" then some ["up /net/ether1 x 9000"]
    else none⟩

/-- Witness for C3: the sample filesystem lists both records in ascending
order, and a filesystem whose entry 1 lacks its device address file fails
as a whole with that I/O error. -/
theorem interfaceTable_zero_witness :
    interfaceTable sampleFS 0 = Except.ok [sampleRec0, sampleRec1] ∧
    interfaceTable fsBrokenEntry 0 = Except.error (NetErr.io "/net/ether1/addr") := by
  constructor
  · exact ((interfaceTable_zero sampleFS 2 (by decide)).1 sampleRecs (by decide)).trans
      (by decide)
  · exact ((interfaceTable_zero fsBrokenEntry 2 (by decide)).2 1 (NetErr.io "/net/ether1/addr")
      (by decide) (by decide) (by decide)).1

/-! The single-interface branch of interfaceTable. -/

/-- C7: a nonzero selector k is passed directly to readInterface as a
zero-based position: the call returns the singleton of that read, and on
success the single record has Index k + 1 and Name the decimal string of
k — in particular its Index differs from k, so selecting with an Index
value obtained from a prior full listing yields a different entry than
the one that carried that Index. -/
theorem interfaceTable_nonzero (fs : Plan9FS) (k : Int) (hk : k ≠ 0) :
    interfaceTable fs k = (readInterface fs k).map (fun ifc => [ifc]) ∧
    ∀ rec, readInterface fs k = Except.ok rec →
      interfaceTable fs k = Except.ok [rec] ∧ rec.Index = k + 1 ∧
      rec.Name = itoaInt k ∧ rec.Index ≠ k := by
  constructor
  · unfold interfaceTable
    rw [if_neg hk]
    cases hr : readInterface fs k <;> simp [Except.map]
  · intro rec hr
    have hf := readInterface_fields fs k rec hr
    refine ⟨?_, hf.1, hf.2, ?_⟩
    · unfold interfaceTable
      rw [if_neg hk, hr]
    · rw [hf.1]
      omega

/-- Witness for C7: selector 1 on the sample filesystem returns the
entry at position 1, whose Index is 2, not 1. -/
theorem interfaceTable_nonzero_witness :
    interfaceTable sampleFS 1 = Except.ok [sampleRec1] ∧ sampleRec1.Index ≠ 1 :=
  ⟨(((interfaceTable_nonzero sampleFS 1 (by decide)).2 sampleRec1 (by decide))).1,
   (((interfaceTable_nonzero sampleFS 1 (by decide)).2 sampleRec1 (by decide))).2.2.2⟩

/-! Address extraction of interfaceAddrTable. -/

/-- Specification-side address extraction for one interface: when the
second line of its status file begins with a tab character, the first
space-delimited token of the second tab-delimited field of that line is
parsed as an IP address and paired with an empty zone. -/
def specAddrOf (fs : Plan9FS) (i : Interface) : Option IPAddr :=
  match fs.files (statusPath i.Name) with
  | none => none
  | some sLines =>
    match (getLine sLines 1).data.head? with
    | some c =>
      if c = '\t' then
        (ParseIP ((strSplit ((strSplit (getLine sLines 1) '\t').getD 1 "") ' ').getD 0 "")).map
          (fun ip => ⟨ip, ""⟩)
      else none
    | none => none

theorem addrForIface_of_spec (fs : Plan9FS) (i : Interface) (a : IPAddr)
    (h : specAddrOf fs i = some a) : addrForIface fs i = Except.ok a := by
  cases hf : fs.files (statusPath i.Name) with
  | none =>
    simp only [specAddrOf, hf] at h
    exact Option.noConfusion h
  | some sLines =>
    cases hd : (getLine sLines 1).data with
    | nil =>
      simp only [specAddrOf, hf, hd, List.head?] at h
      exact Option.noConfusion h
    | cons c t =>
      by_cases hc : c = '\t'
      · cases hip :
          ParseIP ((strSplit ((strSplit (getLine sLines 1) '\t').getD 1 "") ' ').getD 0 "") with
        | none =>
          simp only [specAddrOf, hf, hd, List.head?_cons, if_pos hc, hip, Option.map] at h
          exact Option.noConfusion h
        | some ip =>
          simp only [specAddrOf, hf, hd, List.head?_cons, if_pos hc, hip, Option.map] at h
          have ha := Option.some.inj h
          subst ha
          simp only [addrForIface, hf]
          rw [if_neg (by simp [hd]), if_neg (by simp [strSlice, hd, hc]), hip]
      · simp only [specAddrOf, hf, hd, List.head?_cons, if_neg hc] at h
        exact Option.noConfusion h

theorem buildAddrs_ok (fs : Plan9FS) :
    ∀ ifaces : List Interface, (∀ i ∈ ifaces, (specAddrOf fs i).isSome = true) →
      buildAddrs fs ifaces = Except.ok (ifaces.filterMap (specAddrOf fs)) ∧
      (ifaces.filterMap (specAddrOf fs)).length = ifaces.length := by
  intro ifaces
  induction ifaces with
  | nil => intro _; exact ⟨rfl, rfl⟩
  | cons i rest ih =>
    intro hall
    have hi := hall i (by simp)
    obtain ⟨a, ha⟩ := Option.isSome_iff_exists.mp hi
    have hrest := ih (fun x hx => hall x (by simp [hx]))
    constructor
    · simp only [buildAddrs, addrForIface_of_spec fs i a ha, hrest.1, List.filterMap_cons, ha]
    · simp only [List.filterMap_cons, ha, List.length_cons, hrest.2]

/-- The interface sequence that interfaceAddrTable resolves: the full
listing via interfaceTable 0 when no interface is given, else exactly the
single given one. -/
def resolvedIfaces (fs : Plan9FS) : Option Interface → Except NetErr (List Interface)
  | none => interfaceTable fs 0
  | some i => Except.ok [i]

/-- C10 (amended): for a resolved interface sequence in which every
status file second line begins with a tab and its extracted token parses,
interfaceAddrTable emits exactly one address record per interface — the
first space-delimited token of the second tab-delimited field, parsed,
with an always empty zone — in the same order as the resolved sequence. -/
theorem interfaceAddrTable_extract (fs : Plan9FS) (ifi : Option Interface)
    (ifaces : List Interface)
    (hres : resolvedIfaces fs ifi = Except.ok ifaces)
    (hok : ∀ i ∈ ifaces, (specAddrOf fs i).isSome = true) :
    interfaceAddrTable fs ifi = Except.ok (ifaces.filterMap (specAddrOf fs)) ∧
    (ifaces.filterMap (specAddrOf fs)).length = ifaces.length := by
  have hb := buildAddrs_ok fs ifaces hok
  refine ⟨?_, hb.2⟩
  cases ifi with
  | none =>
    simp only [resolvedIfaces] at hres
    simp only [interfaceAddrTable, hres, hb.1]
  | some i =>
    simp only [resolvedIfaces] at hres
    have hsing := Except.ok.inj hres
    subst hsing
    simp only [interfaceAddrTable]
    exact hb.1

/-- The filesystem of the claim example: the status second line begins
with the word flags, not with a tab. -/
def fsSpecExample : Plan9FS :=
  ⟨some ["0"], fun p =>
    if p = "/net/ipifc/0/status" then
      some ["up /net/ether0 x 1500", "flags\t10.0.0.5 255.255.255.0\t"]
    else if p = "/net/ether0/addr" then some ["0011223344aa"]
    else none⟩

/-- Counterexample for C10: on the example line of the claim, whose first
character is f rather than a tab, the call fails with the cannot-parse
format error and does not yield the address record with IP 10.0.0.5. -/
theorem interfaceAddrTable_example_cex :
    interfaceAddrTable fsSpecExample (some sampleRec0) =
      Except.error (NetErr.msg "Cannot parse IP address for interface") ∧
    interfaceAddrTable fsSpecExample (some sampleRec0) ≠
      Except.ok [⟨[10, 0, 0, 5], ""⟩] :=
  ⟨by decide, by decide⟩

/-- Witness for C10 (amended): on the sample filesystem both interfaces
carry tab-led address lines, and the full walk yields the two parsed
addresses with empty zones in listing order. -/
theorem interfaceAddrTable_extract_witness :
    interfaceAddrTable sampleFS none =
      Except.ok [⟨[10, 0, 0, 5], ""⟩, ⟨[192, 168, 1, 7], ""⟩] := by
  have h := interfaceAddrTable_extract sampleFS none [sampleRec0, sampleRec1]
    (by decide) (by decide)
  exact h.1.trans (by decide)

end Plan9Net
